import Mathlib

/-! Perma-cache data-access layer (`packages/api/src/utils/db-client.js`)

A shallow embedding of `DBClient`: every method builds a PostgREST query,
awaits the store's response `{ data, error, status }` and classifies it.

* The store is a parameter `exec : Query → σ → Response × σ` (the awaited
  round trip, threading the store state `σ`).
* JavaScript values are the type `JSVal`; numbers are integers (no `NaN`,
  no fractions), so `!x` is false exactly on `undefined`, `null`, `false`,
  `0` and the empty string.
* A thrown exception is `Except.error`, a returned value is `Except.ok`;
  a bare `return` is `Except.ok JSVal.undefined`.
-/

namespace DBClient

/-! ## JavaScript values -/

/-- JavaScript values as found in a decoded store response. -/
inductive JSVal where
  | undefined
  | null
  | bool (b : Bool)
  | num (n : Int)
  | str (s : String)
  | obj (fields : List (String × JSVal))
  | arr (items : List JSVal)

namespace JSVal

/-- Truthiness: what `if (v)` tests, `!v` being its negation. -/
def truthy : JSVal → Bool
  | undefined => false
  | null => false
  | bool b => b
  | num n => n != 0
  | str s => s != ""
  | obj _ => true
  | arr _ => true

/-- The comparison of `Set.prototype.has` (SameValueZero), which is `===` on
integers, strings, booleans, `null` and `undefined`. Objects and arrays are
compared by reference; two values decoded from a response are never the same
reference. -/
def sameValueZero : JSVal → JSVal → Bool
  | undefined, undefined => true
  | null, null => true
  | bool a, bool b => a == b
  | num a, num b => a == b
  | str a, str b => a == b
  | _, _ => false

mutual
/-- String conversion, as a template literal performs it. -/
def toStr : JSVal → String
  | undefined => "undefined"
  | null => "null"
  | bool b => if b then "true" else "false"
  | num n => toString n
  | str s => s
  | obj _ => "[object Object]"
  | arr items => ",".intercalate (itemStrs items)
/-- The strings that `Array.prototype.join` puts between the commas: `null`
and `undefined` items give the empty string. -/
def itemStrs : List JSVal → List String
  | [] => []
  | undefined :: rest => "" :: itemStrs rest
  | null :: rest => "" :: itemStrs rest
  | v :: rest => toStr v :: itemStrs rest
end

end JSVal

/-! ## Errors -/

/-- The exceptions the layer can raise. `DBError` and `ConstraintError` are
the classes of `errors.js`; `Error` is the built-in class; `TypeError` is what
the runtime raises on a property access on `null` or `undefined`, or on a call
of something that is not a function. -/
inductive Err where
  | DBError (error : JSVal)
  | ConstraintError (message : String) (status : Option Int)
  | Error (message : String)
  | TypeError

/-- The `length` of a string: its number of UTF-16 code units. -/
def utf16Length (s : String) : Nat :=
  (s.toList.map (fun c => c.utf16Size.toNat)).sum

/-- Property access `v.key`. Numbers and booleans have no own property, and
none of the names read here is on their prototype. -/
def getProp (v : JSVal) (key : String) : Except Err JSVal :=
  match v with
  | .undefined => .error .TypeError
  | .null => .error .TypeError
  | .obj fields => .ok ((fields.lookup key).getD .undefined)
  | .arr items => .ok (if key = "length" then .num items.length else .undefined)
  | .str s => .ok (if key = "length" then .num (utf16Length s) else .undefined)
  | _ => .ok .undefined

/-- Indexed access `v[i]`. On a string it is the character at `i`, for strings
of characters that take one UTF-16 code unit each. -/
def getIndex (v : JSVal) (i : Nat) : Except Err JSVal :=
  match v with
  | .undefined => .error .TypeError
  | .null => .error .TypeError
  | .arr items => .ok (items.getD i .undefined)
  | .str s =>
    match s.toList.get? i with
    | some c => .ok (.str (String.singleton c))
    | none => .ok .undefined
  | .obj fields => .ok ((fields.lookup (toString i)).getD .undefined)
  | _ => .ok .undefined

/-! ## Queries and responses -/

/-- The row filters of the query builder. -/
inductive Filter where
  | eq (column : String) (value : JSVal)
  | is (column : String) (value : JSVal)
  | lt (column : String) (value : JSVal)
  | or (filters : String)
  | filter (column : String) (operator : String) (value : JSVal)
  | matchAll (query : List (String × JSVal))

/-- What the query does to its table. A select list is kept as its items,
each one `(name in the result, column)`: `insertedAt:inserted_at` is
`("insertedAt", "inserted_at")`. -/
inductive Action where
  | select (columns : List (String × String))
  | insert (values : List (String × JSVal))
  | update (values : List (String × JSVal))
  | rpc (params : List (String × JSVal))

/-- A query as assembled by a chain of builder calls. -/
structure Query where
  schema : Option String
  table : String
  action : Action
  filters : List Filter
  limitTo : Option Int
  orderBy : Option (String × Bool)
  expectSingle : Bool

/-- The awaited result of a query. -/
structure Response where
  data : JSVal
  error : JSVal
  status : Int

namespace Query

/-- Builder call `.eq(column, value)`. -/
def eq (q : Query) (column : String) (value : JSVal) : Query :=
  { q with filters := q.filters ++ [Filter.eq column value] }

/-- Builder call `.is(column, value)`. -/
def is (q : Query) (column : String) (value : JSVal) : Query :=
  { q with filters := q.filters ++ [Filter.is column value] }

/-- Builder call `.lt(column, value)`. -/
def lt (q : Query) (column : String) (value : JSVal) : Query :=
  { q with filters := q.filters ++ [Filter.lt column value] }

/-- Builder call `.or(filters)`. -/
def or (q : Query) (filters : String) : Query :=
  { q with filters := q.filters ++ [Filter.or filters] }

/-- Builder call `.filter(column, operator, value)`. -/
def filter (q : Query) (column operator : String) (value : JSVal) : Query :=
  { q with filters := q.filters ++ [Filter.filter column operator value] }

/-- Builder call `.match(query)`. -/
def matchAll (q : Query) (query : List (String × JSVal)) : Query :=
  { q with filters := q.filters ++ [Filter.matchAll query] }

/-- Builder call `.limit(count)`. -/
def limit (q : Query) (count : Int) : Query :=
  { q with limitTo := some count }

/-- Builder call `.order(column, { ascending })`. -/
def order (q : Query) (column : String) (ascending : Bool) : Query :=
  { q with orderBy := some (column, ascending) }

/-- Builder call `.single()`. -/
def single (q : Query) : Query :=
  { q with expectSingle := true }

end Query

/-- The two clients of the constructor: `_client` (default schema) and
`_clientNftStorage` (schema `nftstorage`), each followed by `.from(table)` and
the first builder call. -/
def clientFrom (table : String) (action : Action) : Query :=
  { schema := none, table := table, action := action, filters := [],
    limitTo := none, orderBy := none, expectSingle := false }

/-- A query on `_clientNftStorage`. -/
def clientNftStorageFrom (table : String) (action : Action) : Query :=
  { schema := some "nftstorage", table := table, action := action, filters := [],
    limitTo := none, orderBy := none, expectSingle := false }

/-- A remote procedure call `_client.rpc(fn, params)`. -/
def clientRpc (fn : String) (params : List (String × JSVal)) : Query :=
  { schema := none, table := fn, action := Action.rpc params, filters := [],
    limitTo := none, orderBy := none, expectSingle := false }

/-! ## createPermaCache -/

/-- The argument of `createPermaCache`. -/
structure PermaCache where
  userId : Int
  url : String
  size : Int
  insertedAt : String

/-- The insert built by `createPermaCache`. -/
def createPermaCacheQuery (permaCache : PermaCache) : Query :=
  (clientFrom "perma_cache" (Action.insert
    [("user_id", .num permaCache.userId),
     ("url", .str permaCache.url),
     ("size", .num permaCache.size),
     ("inserted_at", .str permaCache.insertedAt)])).single

/-- Method `createPermaCache`. `HTTP_STATUS_CONFLICT` is the constant imported
from `../constants.js`. -/
def createPermaCache {σ : Type} (HTTP_STATUS_CONFLICT : Int)
    (exec : Query → σ → Response × σ) (permaCache : PermaCache) (s : σ) :
    Except Err JSVal × σ :=
  let r := exec (createPermaCacheQuery permaCache) s
  let data := r.1.data
  let error := r.1.error
  let status := r.1.status
  if error.truthy then
    if status = HTTP_STATUS_CONFLICT then
      (.error (.ConstraintError "URL already found for user" (some HTTP_STATUS_CONFLICT)), r.2)
    else
      (.error (.DBError error), r.2)
  else if !data.truthy then
    (.error (.Error "Perma cache not created."), r.2)
  else
    (.ok data, r.2)

/-! ## getPermaCache -/

/-- The select list `url, size, insertedAt:inserted_at`. -/
def permaCacheColumns : List (String × String) :=
  [("url", "url"), ("size", "size"), ("insertedAt", "inserted_at")]

/-- The query built by `getPermaCache`. -/
def getPermaCacheQuery (userId : Int) (url : String) : Query :=
  ((((clientFrom "perma_cache" (Action.select permaCacheColumns)).eq "user_id" (.num userId)).eq
    "url" (.str url)).is "deleted_at" .null).single

/-- Method `getPermaCache`. -/
def getPermaCache {σ : Type} (exec : Query → σ → Response × σ) (userId : Int) (url : String)
    (s : σ) : Except Err JSVal × σ :=
  let r := exec (getPermaCacheQuery userId url) s
  let data := r.1.data
  let status := r.1.status
  let error := r.1.error
  if status = 406 || !data.truthy then
    (.ok .undefined, r.2)
  else if error.truthy then
    (.error (.DBError error), r.2)
  else
    (.ok data, r.2)

/-! ## listPermaCache -/

/-- The optional argument `opts` of `listPermaCache`; `none` is a property that
is not supplied. -/
structure ListOpts where
  size : Option Int := none
  before : Option String := none
  sortBy : Option String := none
  sortOrder : Option String := none

/-- The expression `opts.size || 10`. -/
def sizeOrDefault (size : Option Int) : Int :=
  match size with
  | none => 10
  | some n => if (JSVal.num n).truthy then n else 10

/-- The query built by `listPermaCache`. -/
def listPermaCacheQuery (userId : Int) (opts : ListOpts) : Query :=
  let query :=
    ((((clientFrom "perma_cache" (Action.select permaCacheColumns)).eq "user_id" (.num userId)).is
      "deleted_at" .null).limit (sizeOrDefault opts.size)).order
      (if opts.sortBy = some "Size" then "size" else "inserted_at")
      (decide (opts.sortOrder = some "Asc"))
  match opts.before with
  | none => query
  | some before => if (JSVal.str before).truthy then query.lt "inserted_at" (.str before) else query

/-- Method `listPermaCache`. -/
def listPermaCache {σ : Type} (exec : Query → σ → Response × σ) (userId : Int)
    (opts : ListOpts) (s : σ) : Except Err JSVal × σ :=
  let r := exec (listPermaCacheQuery userId opts) s
  let data := r.1.data
  let error := r.1.error
  if error.truthy then
    (.error (.DBError error), r.2)
  else
    (.ok data, r.2)

/-! ## deletePermaCache -/

/-- The update built by `deletePermaCache`; `date` is `new Date().toISOString()`. -/
def deletePermaCacheQuery (date : String) (userId : Int) (url : String) : Query :=
  ((clientFrom "perma_cache" (Action.update
    [("deleted_at", .str date), ("updated_at", .str date)])).matchAll
    [("url", .str url), ("user_id", .num userId)]).is "deleted_at" .null

/-- What `deletePermaCache` makes of the response data. -/
def deletePermaCacheResult (data : JSVal) : Except Err JSVal :=
  if !data.truthy then
    .ok .undefined
  else do
    let length ← getProp data "length"
    if !length.truthy then
      .ok .undefined
    else do
      let first ← getIndex data 0
      let id ← getProp first "id"
      .ok (.obj [("id", id)])

/-- Method `deletePermaCache`. Only `data` is read from the response. -/
def deletePermaCache {σ : Type} (exec : Query → σ → Response × σ) (date : String)
    (userId : Int) (url : String) (s : σ) : Except Err JSVal × σ :=
  let r := exec (deletePermaCacheQuery date userId url) s
  (deletePermaCacheResult r.1.data, r.2)

/-! ## getUsedPermaCacheStorage -/

/-- Method `getUsedPermaCacheStorage`. -/
def getUsedPermaCacheStorage {σ : Type} (exec : Query → σ → Response × σ) (userId : Int)
    (s : σ) : Except Err JSVal × σ :=
  let r := exec (clientRpc "user_used_perma_cache_storage"
    [("query_user_id", .num userId)]).single s
  if r.1.error.truthy then
    (.error (.DBError r.1.error), r.2)
  else
    (.ok r.1.data, r.2)

/-! ## getUser -/

/-- The query built by `getUser`. -/
def getUserQuery (id : String) : Query :=
  ((((clientNftStorageFrom "user" (Action.select
    [("id", "id"), ("github_id", "github_id"), ("did", "did"),
     ("keys", "auth_key_user_id_fkey(user_id,id,name,secret)"),
     ("tags", "user_tag_user_id_fkey(user_id,id,tag,value)")])).or
    ("magic_link_id.eq." ++ id ++ ",github_id.eq." ++ id ++ ",did.eq." ++ id)).filter
    "keys.deleted_at" "is" .null).filter "tags.deleted_at" "is" .null).single

/-- Method `getUser`. -/
def getUser {σ : Type} (exec : Query → σ → Response × σ) (id : String) (s : σ) :
    Except Err JSVal × σ :=
  let r := exec (getUserQuery id) s
  let data := r.1.data
  let error := r.1.error
  let status := r.1.status
  if status = 406 || !data.truthy then
    (.ok .undefined, r.2)
  else if error.truthy then
    (.error (.DBError error), r.2)
  else
    (.ok data, r.2)

/-! ## getUserTags -/

/-- The query built by `getUserTags`. -/
def getUserTagsQuery (userId : Int) : Query :=
  ((clientNftStorageFrom "user_tag" (Action.select [("tag", "tag"), ("value", "value")])).eq
    "user_id" (.num userId)).filter "deleted_at" "is" .null

/-- The loop `data.forEach(...)` over the remaining items, `tags` being the
set built so far (in insertion order). -/
def forEachTag : List JSVal → List JSVal → Except Err Unit
  | [], _ => .ok ()
  | item :: rest, tags =>
    match getProp item "tag" with
    | .error e => .error e
    | .ok tag =>
      if tags.any (JSVal.sameValueZero tag) then
        .error (.ConstraintError ("More than one row found for user tag " ++ tag.toStr) none)
      else
        forEachTag rest (tags ++ [tag])

/-- Method `getUserTags`. -/
def getUserTags {σ : Type} (exec : Query → σ → Response × σ) (userId : Int) (s : σ) :
    Except Err JSVal × σ :=
  let r := exec (getUserTagsQuery userId) s
  let data := r.1.data
  let error := r.1.error
  if error.truthy then
    (.error (.DBError error), r.2)
  else
    match data with
    | .arr items =>
      match forEachTag items [] with
      | .error e => (.error e, r.2)
      | .ok _ => (.ok data, r.2)
    | _ => (.error .TypeError, r.2)

/-! ## A model store for the table `perma_cache` -/

/-- A row of the table `perma_cache`. Timestamps are ISO-8601 strings in one
fixed format, which the store compares as the instants they denote; on such
strings that is the lexicographic order. -/
structure Row where
  id : Int
  user_id : Int
  url : String
  size : Int
  inserted_at : String
  updated_at : String
  deleted_at : Option String

namespace Row

/-- The value of a column of a row. -/
def col (r : Row) (column : String) : JSVal :=
  if column = "id" then .num r.id
  else if column = "user_id" then .num r.user_id
  else if column = "url" then .str r.url
  else if column = "size" then .num r.size
  else if column = "inserted_at" then .str r.inserted_at
  else if column = "updated_at" then .str r.updated_at
  else if column = "deleted_at" then
    match r.deleted_at with
    | none => .null
    | some d => .str d
  else .undefined

/-- One assignment of an update. -/
def set (r : Row) (column : String) (value : JSVal) : Row :=
  match value with
  | .str v =>
    if column = "url" then { r with url := v }
    else if column = "inserted_at" then { r with inserted_at := v }
    else if column = "updated_at" then { r with updated_at := v }
    else if column = "deleted_at" then { r with deleted_at := some v }
    else r
  | .num v =>
    if column = "id" then { r with id := v }
    else if column = "user_id" then { r with user_id := v }
    else if column = "size" then { r with size := v }
    else r
  | .null => if column = "deleted_at" then { r with deleted_at := none } else r
  | _ => r

/-- All the assignments of an update, in order. -/
def setAll (r : Row) (values : List (String × JSVal)) : Row :=
  values.foldl (fun acc kv => acc.set kv.1 kv.2) r

/-- The whole row as the store returns it. -/
def toJS (r : Row) : JSVal :=
  .obj [("id", r.col "id"), ("user_id", r.col "user_id"), ("url", r.col "url"),
    ("size", r.col "size"), ("inserted_at", r.col "inserted_at"),
    ("updated_at", r.col "updated_at"), ("deleted_at", r.col "deleted_at")]

/-- The row cut down to a select list. -/
def project (columns : List (String × String)) (r : Row) : JSVal :=
  .obj (columns.map (fun c => (c.1, r.col c.2)))

end Row

/-- Order of two column values: strings lexicographically, numbers by value. -/
def valueLt : JSVal → JSVal → Bool
  | .str a, .str b => decide (a < b)
  | .num a, .num b => decide (a < b)
  | _, _ => false

/-- Whether a row passes a filter. The model store knows `eq`, `is`, `lt` and
`match` (and `filter` with one of these operators); a row passes no other
filter. -/
def Filter.holds (r : Row) : Filter → Bool
  | .eq column value => (r.col column).sameValueZero value
  | .is column value => (r.col column).sameValueZero value
  | .lt column value => valueLt (r.col column) value
  | .matchAll query => query.all (fun kv => (r.col kv.1).sameValueZero kv.2)
  | .filter column operator value =>
    if operator = "eq" ∨ operator = "is" then (r.col column).sameValueZero value
    else if operator = "lt" then valueLt (r.col column) value
    else false
  | .or _ => false

/-- Whether a row passes every filter of a query. -/
def Query.selects (q : Query) (r : Row) : Bool :=
  q.filters.all (Filter.holds r)

/-- The rows in the order a query asks for. -/
def orderRows (orderBy : Option (String × Bool)) (rows : List Row) : List Row :=
  match orderBy with
  | none => rows
  | some (column, true) =>
    rows.insertionSort (fun a b => valueLt (b.col column) (a.col column) = false)
  | some (column, false) =>
    rows.insertionSort (fun a b => valueLt (a.col column) (b.col column) = false)

/-- The first rows a query asks for. -/
def limitRows (limitTo : Option Int) (rows : List Row) : List Row :=
  match limitTo with
  | none => rows
  | some n => rows.take n.toNat

/-- The response to a query that the store cannot answer. -/
def badRequest : Response :=
  { data := .null, error := .obj [("message", .str "bad request")], status := 400 }

/-- The response to a single-row query that did not match exactly one row. -/
def notAcceptable : Response :=
  { data := .null, error := .obj [("message", .str "not a single row")], status := 406 }

/-- What a select returns: the list, or for `.single()` its only item. -/
def selectResponse (expectSingle : Bool) (items : List JSVal) : Response :=
  if expectSingle then
    match items with
    | [item] => { data := item, error := .null, status := 200 }
    | _ => notAcceptable
  else { data := .arr items, error := .null, status := 200 }

/-- Modelled from the spec: the remote store for the table `perma_cache`, an
external collaborator of which the repository holds only the queries. The state
is the list of rows. A conditional update rewrites the rows that pass the
filters and returns them as rewritten; a select returns the rows that pass the
filters, sorted, limited and cut down to the select list. -/
def storeExec (q : Query) (rows : List Row) : Response × List Row :=
  if q.table = "perma_cache" ∧ q.schema = none then
    match q.action with
    | .update values =>
      ({ data := .arr ((rows.filter q.selects).map (fun r => (r.setAll values).toJS)),
         error := .null, status := 200 },
       rows.map (fun r => if q.selects r then r.setAll values else r))
    | .select columns =>
      (selectResponse q.expectSingle
         ((limitRows q.limitTo (orderRows q.orderBy (rows.filter q.selects))).map
           (Row.project columns)),
       rows)
    | _ => (badRequest, rows)
  else (badRequest, rows)

/-! ## Typed rows and fixed stores used to evaluate the methods -/

/-- A row of the select of `getUserTags`, of type `{ tag: string, value: string }`. -/
structure UserTag where
  tag : String
  value : String

/-- The row as it stands in the response data. -/
def UserTag.toJS (t : UserTag) : JSVal :=
  .obj [("tag", .str t.tag), ("value", .str t.value)]

/-- A store without state that answers every query with the same response. -/
def constStore (resp : Response) : Query → Unit → Response × Unit :=
  fun _ s => (resp, s)

/-- An error object as the store reports one. -/
def storeError : JSVal :=
  .obj [("message", .str "connection refused")]

/-- A failed round trip: status 500, an error, no data. -/
def failedResponse : Response :=
  { data := .null, error := storeError, status := 500 }

/-- A row as `getPermaCache` selects it. -/
def sampleEntry : JSVal :=
  .obj [("url", .str "https://example.org/a"), ("size", .num 12),
    ("insertedAt", .str "2022-06-01T00:00:00.000Z")]

/-- Two active tags with different names. -/
def distinctTags : List UserTag :=
  [⟨"HasSuperHotAccess", "true"⟩, ⟨"HasAccountRestriction", "false"⟩]

/-- Three active tags, the first name coming again as the third. -/
def repeatedTags : List UserTag :=
  [⟨"HasSuperHotAccess", "true"⟩, ⟨"HasAccountRestriction", "false"⟩,
    ⟨"HasSuperHotAccess", "false"⟩]

/-- The response of the store that returns these tags without error. -/
def tagsResponse (tags : List UserTag) : Response :=
  { data := .arr (tags.map UserTag.toJS), error := .null, status := 200 }

/-- An active entry of user 1. -/
def sampleRow : Row :=
  ⟨1, 1, "https://example.org/a", 10, "2022-06-01T00:00:00.000Z",
    "2022-06-01T00:00:00.000Z", none⟩

/-- An active entry of user 1, a day later. -/
def sampleRow2 : Row :=
  ⟨2, 1, "https://example.org/b", 20, "2022-06-02T00:00:00.000Z",
    "2022-06-02T00:00:00.000Z", none⟩

/-- An active entry of user 1, two days later. -/
def sampleRow3 : Row :=
  ⟨3, 1, "https://example.org/c", 30, "2022-06-03T00:00:00.000Z",
    "2022-06-03T00:00:00.000Z", none⟩

/-- A store state: the three active entries of user 1, a tombstoned entry of
user 1 and an active entry of user 2 with the url of the first. -/
def sampleRows : List Row :=
  [sampleRow, sampleRow2, sampleRow3,
   ⟨4, 1, "https://example.org/d", 40, "2022-05-01T00:00:00.000Z",
      "2022-05-02T00:00:00.000Z", some "2022-05-02T00:00:00.000Z"⟩,
   ⟨5, 2, "https://example.org/a", 50, "2022-04-01T00:00:00.000Z",
      "2022-04-01T00:00:00.000Z", none⟩]

/-- The active entries of a user: the rows of the user that are not tombstoned. -/
def activeRows (userId : Int) (rows : List Row) : List Row :=
  rows.filter (fun r => decide (r.user_id = userId ∧ r.deleted_at = none))

/-! ## Classification of store responses -/

theorem truthy_false_iff (v : JSVal) :
    v.truthy = false ↔
      v = .undefined ∨ v = .null ∨ v = .bool false ∨ v = .num 0 ∨ v = .str "" := by
  cases v <;> simp [JSVal.truthy]

/-- C1. `createPermaCache` classifies the store response: an error with the
conflict status is a `ConstraintError` with the message "URL already found for
user" and the conflict status; an error with another status is a `DBError`
wrapping that error; no error and no row is the generic error "Perma cache not
created."; anything else is the row of the store, unchanged. The state of the
store is what the store left. -/
theorem createPermaCache_classifies {σ : Type} (HTTP_STATUS_CONFLICT : Int)
    (exec : Query → σ → Response × σ) (permaCache : PermaCache) (s : σ) :
    let resp := (exec (createPermaCacheQuery permaCache) s).1
    let out := createPermaCache HTTP_STATUS_CONFLICT exec permaCache s
    out.2 = (exec (createPermaCacheQuery permaCache) s).2 ∧
    (resp.error.truthy = true → resp.status = HTTP_STATUS_CONFLICT →
      out.1 = .error (.ConstraintError "URL already found for user"
        (some HTTP_STATUS_CONFLICT))) ∧
    (resp.error.truthy = true → resp.status ≠ HTTP_STATUS_CONFLICT →
      out.1 = .error (.DBError resp.error)) ∧
    (resp.error.truthy = false → resp.data.truthy = false →
      out.1 = .error (.Error "Perma cache not created.")) ∧
    (resp.error.truthy = false → resp.data.truthy = true → out.1 = .ok resp.data) := by
  intro resp out
  simp only [out, resp, createPermaCache]
  refine ⟨?_, ?_, ?_, ?_, ?_⟩
  · split_ifs <;> rfl
  · intro h1 h2; simp [h1, h2]
  · intro h1 h2; simp [h1, h2]
  · intro h1 h2; simp [h1, h2]
  · intro h1 h2; simp [h1, h2]

/-- Witness of C1: the four classes of response, each at a concrete response. -/
theorem createPermaCache_classifies_witness :
    (createPermaCache 409 (constStore { data := .null, error := storeError, status := 409 })
        ⟨1, "https://example.org/a", 12, "2022-06-01T00:00:00.000Z"⟩ ()).1 =
      .error (.ConstraintError "URL already found for user" (some 409)) ∧
    (createPermaCache 409 (constStore failedResponse)
        ⟨1, "https://example.org/a", 12, "2022-06-01T00:00:00.000Z"⟩ ()).1 =
      .error (.DBError storeError) ∧
    (createPermaCache 409 (constStore { data := .null, error := .null, status := 201 })
        ⟨1, "https://example.org/a", 12, "2022-06-01T00:00:00.000Z"⟩ ()).1 =
      .error (.Error "Perma cache not created.") ∧
    (createPermaCache 409 (constStore { data := sampleEntry, error := .null, status := 201 })
        ⟨1, "https://example.org/a", 12, "2022-06-01T00:00:00.000Z"⟩ ()).1 =
      .ok sampleEntry :=
  ⟨(createPermaCache_classifies 409 (constStore _) _ ()).2.1 rfl rfl,
   (createPermaCache_classifies 409 (constStore failedResponse) _ ()).2.2.1 rfl (by decide),
   (createPermaCache_classifies 409 (constStore _) _ ()).2.2.2.1 rfl rfl,
   (createPermaCache_classifies 409 (constStore _) _ ()).2.2.2.2 rfl rfl⟩

/-- C3, evaluated: on a failed round trip (an error, status 500, no data)
`getPermaCache` and `getUser` both return `undefined` instead of raising
`DBError`: the test `status === 406 || !data` comes before `if (error)`. -/
theorem getPermaCache_getUser_swallow_error :
    failedResponse.error.truthy = true ∧ failedResponse.status ≠ 406 ∧
    (getPermaCache (constStore failedResponse) 1 "https://example.org/a" ()).1 =
      .ok .undefined ∧
    (getUser (constStore failedResponse) "did:key:z6Mk" ()).1 = .ok .undefined :=
  ⟨rfl, by decide, rfl, rfl⟩

/-- What the two lookups do with an error that comes with data: `DBError`. -/
theorem getPermaCache_getUser_error_with_data {σ : Type} (exec : Query → σ → Response × σ)
    (userId : Int) (url id : String) (s : σ) :
    let rp := (exec (getPermaCacheQuery userId url) s).1
    let ru := (exec (getUserQuery id) s).1
    (rp.error.truthy = true → rp.status ≠ 406 → rp.data.truthy = true →
      (getPermaCache exec userId url s).1 = .error (.DBError rp.error)) ∧
    (ru.error.truthy = true → ru.status ≠ 406 → ru.data.truthy = true →
      (getUser exec id s).1 = .error (.DBError ru.error)) := by
  intro rp ru
  simp only [rp, ru, getPermaCache, getUser]
  constructor <;> intro h1 h2 h3 <;> simp [h1, h2, h3]

/-- C4. When the status is 406 or the data is missing (falsy: `null`,
`undefined`), `getPermaCache` and `getUser` return `undefined` and raise
nothing; when the data is present, there is no error and the status is not 406,
each returns the data of the store unchanged. -/
theorem getPermaCache_getUser_absent_or_data {σ : Type} (exec : Query → σ → Response × σ)
    (userId : Int) (url id : String) (s : σ) :
    let rp := (exec (getPermaCacheQuery userId url) s).1
    let ru := (exec (getUserQuery id) s).1
    (rp.status = 406 ∨ rp.data.truthy = false →
      (getPermaCache exec userId url s).1 = .ok .undefined) ∧
    (ru.status = 406 ∨ ru.data.truthy = false →
      (getUser exec id s).1 = .ok .undefined) ∧
    (rp.data.truthy = true → rp.error.truthy = false → rp.status ≠ 406 →
      (getPermaCache exec userId url s).1 = .ok rp.data) ∧
    (ru.data.truthy = true → ru.error.truthy = false → ru.status ≠ 406 →
      (getUser exec id s).1 = .ok ru.data) := by
  intro rp ru
  simp only [rp, ru, getPermaCache, getUser]
  refine ⟨?_, ?_, ?_, ?_⟩
  · rintro (h | h) <;> simp [h]
  · rintro (h | h) <;> simp [h]
  · intro h1 h2 h3; simp [h1, h2, h3]
  · intro h1 h2 h3; simp [h1, h2, h3]

/-- Witness of C4: status 406, missing data, and a row that is present. -/
theorem getPermaCache_getUser_absent_or_data_witness :
    (getPermaCache (constStore notAcceptable) 1 "https://example.org/a" ()).1 =
      .ok .undefined ∧
    (getUser (constStore { data := .undefined, error := .null, status := 200 })
      "did:key:z6Mk" ()).1 = .ok .undefined ∧
    (getPermaCache (constStore { data := sampleEntry, error := .null, status := 200 }) 1
      "https://example.org/a" ()).1 = .ok sampleEntry ∧
    (getUser (constStore { data := sampleEntry, error := .null, status := 200 })
      "did:key:z6Mk" ()).1 = .ok sampleEntry :=
  ⟨(getPermaCache_getUser_absent_or_data (constStore notAcceptable) 1 _ "" ()).1 (Or.inl rfl),
   (getPermaCache_getUser_absent_or_data (constStore _) 1 "" _ ()).2.1 (Or.inr rfl),
   (getPermaCache_getUser_absent_or_data (constStore _) 1 _ "" ()).2.2.1 rfl rfl (by decide),
   (getPermaCache_getUser_absent_or_data (constStore _) 1 "" _ ()).2.2.2 rfl rfl (by decide)⟩

/-- C5, evaluated: on a failed round trip (an error, status 500, no data)
`deletePermaCache` returns `undefined`; the error of the response is never
read. -/
theorem deletePermaCache_swallows_error :
    failedResponse.error.truthy = true ∧
    (deletePermaCache (constStore failedResponse) "2022-06-02T00:00:00.000Z" 1
      "https://example.org/a" ()).1 = .ok .undefined :=
  ⟨rfl, rfl⟩

/-- The result of `deletePermaCache` does not depend on the error or the status
of the response. -/
theorem deletePermaCache_ignores_error {σ : Type} (exec exec' : Query → σ → Response × σ)
    (date : String) (userId : Int) (url : String) (s : σ)
    (h : (exec (deletePermaCacheQuery date userId url) s).1.data =
      (exec' (deletePermaCacheQuery date userId url) s).1.data) :
    (deletePermaCache exec date userId url s).1 =
      (deletePermaCache exec' date userId url s).1 := by
  simp [deletePermaCache, h]

/-- C8. When the data of the response is a non-empty list whose first item is a
row (an object), `deletePermaCache` returns `{ id }` with the `id` of that row;
when the data is `null`, `undefined` or the empty list it returns `undefined`
and raises nothing. -/
theorem deletePermaCache_result {σ : Type} (exec : Query → σ → Response × σ)
    (date : String) (userId : Int) (url : String) (s : σ) :
    let data := (exec (deletePermaCacheQuery date userId url) s).1.data
    (∀ fields rest, data = .arr (.obj fields :: rest) →
      (deletePermaCache exec date userId url s).1 =
        .ok (.obj [("id", (fields.lookup "id").getD .undefined)])) ∧
    (data = .null ∨ data = .undefined ∨ data = .arr [] →
      (deletePermaCache exec date userId url s).1 = .ok .undefined) := by
  intro data
  simp only [data, deletePermaCache]
  constructor
  · intro fields rest h
    rw [h]
    simp [deletePermaCacheResult, JSVal.truthy, getProp, getIndex, bind, Except.bind]
    omega
  · rintro (h | h | h) <;> rw [h] <;>
      simp [deletePermaCacheResult, JSVal.truthy, getProp, bind, Except.bind]

/-- Witness of C8: two updated rows, then no row, then no data. -/
theorem deletePermaCache_result_witness :
    (deletePermaCache (constStore
        { data := .arr [.obj [("id", .num 7), ("url", .str "https://example.org/a")],
            .obj [("id", .num 9)]],
          error := .null, status := 200 })
      "2022-06-02T00:00:00.000Z" 1 "https://example.org/a" ()).1 =
      .ok (.obj [("id", .num 7)]) ∧
    (deletePermaCache (constStore { data := .arr [], error := .null, status := 200 })
      "2022-06-02T00:00:00.000Z" 1 "https://example.org/a" ()).1 = .ok .undefined ∧
    (deletePermaCache (constStore { data := .null, error := .null, status := 204 })
      "2022-06-02T00:00:00.000Z" 1 "https://example.org/a" ()).1 = .ok .undefined :=
  ⟨(deletePermaCache_result (constStore _) _ 1 _ ()).1
     [("id", .num 7), ("url", .str "https://example.org/a")] [.obj [("id", .num 9)]] rfl,
   (deletePermaCache_result (constStore _) _ 1 _ ()).2 (Or.inr (Or.inr rfl)),
   (deletePermaCache_result (constStore _) _ 1 _ ()).2 (Or.inl rfl)⟩

/-! ## The query of `listPermaCache` -/

/-- The query of `listPermaCache` written out: without a cursor filter when
`before` is not supplied or is the empty string, with one otherwise. -/
theorem listPermaCacheQuery_cases (userId : Int) (opts : ListOpts) :
    ((opts.before = none ∨ opts.before = some "") ∧
      listPermaCacheQuery userId opts =
        { schema := none, table := "perma_cache", action := Action.select permaCacheColumns,
          filters := [Filter.eq "user_id" (.num userId), Filter.is "deleted_at" .null],
          limitTo := some (sizeOrDefault opts.size),
          orderBy := some (if opts.sortBy = some "Size" then "size" else "inserted_at",
            decide (opts.sortOrder = some "Asc")),
          expectSingle := false }) ∨
    (∃ b, opts.before = some b ∧ b ≠ "" ∧
      listPermaCacheQuery userId opts =
        { schema := none, table := "perma_cache", action := Action.select permaCacheColumns,
          filters := [Filter.eq "user_id" (.num userId), Filter.is "deleted_at" .null,
            Filter.lt "inserted_at" (.str b)],
          limitTo := some (sizeOrDefault opts.size),
          orderBy := some (if opts.sortBy = some "Size" then "size" else "inserted_at",
            decide (opts.sortOrder = some "Asc")),
          expectSingle := false }) := by
  obtain ⟨size, before, sortBy, sortOrder⟩ := opts
  cases before with
  | none => exact Or.inl ⟨Or.inl rfl, rfl⟩
  | some b =>
    by_cases hb : b = ""
    · subst hb
      exact Or.inl ⟨Or.inr rfl, rfl⟩
    · refine Or.inr ⟨b, rfl, hb, ?_⟩
      simp [listPermaCacheQuery, JSVal.truthy, hb, Query.lt, Query.order, Query.limit,
        Query.is, Query.eq, clientFrom]

theorem sizeOrDefault_cases (size : Option Int) :
    (size = none → sizeOrDefault size = 10) ∧ (size = some 0 → sizeOrDefault size = 10) ∧
      (∀ n : Int, size = some n → n ≠ 0 → sizeOrDefault size = n) := by
  refine ⟨?_, ?_, ?_⟩
  · rintro rfl; rfl
  · rintro rfl; rfl
  · rintro n rfl hn; simp [sizeOrDefault, JSVal.truthy, hn]

/-- C7. The query of `listPermaCache` is a select on `perma_cache` that filters
on `user_id = userId` and `deleted_at is null`; its limit is `opts.size` when
that is supplied and not 0, and 10 when it is not supplied or is 0; it orders by
`size` exactly when `sortBy` is `Size` and by `inserted_at` otherwise, ascending
exactly when `sortOrder` is `Asc` and descending otherwise. -/
theorem listPermaCacheQuery_shape (userId : Int) (opts : ListOpts) :
    let q := listPermaCacheQuery userId opts
    q.table = "perma_cache" ∧
    Filter.eq "user_id" (.num userId) ∈ q.filters ∧
    Filter.is "deleted_at" .null ∈ q.filters ∧
    (opts.size = none → q.limitTo = some 10) ∧
    (opts.size = some 0 → q.limitTo = some 10) ∧
    (∀ n : Int, opts.size = some n → n ≠ 0 → q.limitTo = some n) ∧
    (∃ column ascending, q.orderBy = some (column, ascending) ∧
      (opts.sortBy = some "Size" → column = "size") ∧
      (opts.sortBy ≠ some "Size" → column = "inserted_at") ∧
      (opts.sortOrder = some "Asc" → ascending = true) ∧
      (opts.sortOrder ≠ some "Asc" → ascending = false)) := by
  intro q
  have hs := sizeOrDefault_cases opts.size
  have hord : ∃ column ascending,
      some (if opts.sortBy = some "Size" then "size" else "inserted_at",
        decide (opts.sortOrder = some "Asc")) = some (column, ascending) ∧
      (opts.sortBy = some "Size" → column = "size") ∧
      (opts.sortBy ≠ some "Size" → column = "inserted_at") ∧
      (opts.sortOrder = some "Asc" → ascending = true) ∧
      (opts.sortOrder ≠ some "Asc" → ascending = false) :=
    ⟨_, _, rfl, fun h => by simp [h], fun h => by simp [h], fun h => by simp [h],
      fun h => by simp [h]⟩
  rcases listPermaCacheQuery_cases userId opts with ⟨-, h⟩ | ⟨b, -, -, h⟩
  · have hq : q = _ := h
    rw [hq]
    refine ⟨rfl, by simp, by simp, ?_, ?_, ?_, hord⟩
    · intro h1; exact congrArg some (hs.1 h1)
    · intro h1; exact congrArg some (hs.2.1 h1)
    · intro n h1 h2; exact congrArg some (hs.2.2 n h1 h2)
  · have hq : q = _ := h
    rw [hq]
    refine ⟨rfl, by simp, by simp, ?_, ?_, ?_, hord⟩
    · intro h1; exact congrArg some (hs.1 h1)
    · intro h1; exact congrArg some (hs.2.1 h1)
    · intro n h1 h2; exact congrArg some (hs.2.2 n h1 h2)

/-- Witness of C7: a supplied size of 0, sorted by size, ascending. -/
theorem listPermaCacheQuery_shape_witness :
    (listPermaCacheQuery 1 { size := some 0, sortBy := some "Size", sortOrder := some "Asc" }
      ).limitTo = some 10 ∧
    (listPermaCacheQuery 1 { size := some 25 }).limitTo = some 25 :=
  ⟨(listPermaCacheQuery_shape 1
      { size := some 0, sortBy := some "Size", sortOrder := some "Asc" }).2.2.2.2.1 rfl,
   (listPermaCacheQuery_shape 1 { size := some 25 }).2.2.2.2.2.1 25 rfl (by decide)⟩

/-- C6 as stated fails: with `before` supplied as the empty string the query
carries no cursor filter, only the two filters on `user_id` and `deleted_at`. -/
theorem listPermaCacheQuery_empty_before :
    (listPermaCacheQuery 1 { before := some "" }).filters =
      [Filter.eq "user_id" (.num 1), Filter.is "deleted_at" .null] ∧
    (listPermaCacheQuery 1 { before := some "" }).filters ≠
      [Filter.eq "user_id" (.num 1), Filter.is "deleted_at" .null,
        Filter.lt "inserted_at" (.str "")] := by
  constructor
  · rfl
  · intro h
    have := congrArg List.length h
    revert this
    decide

/-- C6, amended. For every `userId` and `opts`: when `before` is supplied and
not the empty string, the filters of the query are the two filters on
`user_id` and `deleted_at` and exactly one more, `inserted_at < before`; when
`before` is not supplied (or is the empty string) there is no cursor filter.
The filters do not depend on `sortBy` or `sortOrder`. -/
theorem listPermaCacheQuery_cursor (userId : Int) (opts : ListOpts) :
    (∀ b, opts.before = some b → b ≠ "" →
      (listPermaCacheQuery userId opts).filters =
        [Filter.eq "user_id" (.num userId), Filter.is "deleted_at" .null,
          Filter.lt "inserted_at" (.str b)]) ∧
    (opts.before = none ∨ opts.before = some "" →
      (listPermaCacheQuery userId opts).filters =
        [Filter.eq "user_id" (.num userId), Filter.is "deleted_at" .null]) ∧
    (∀ sortBy sortOrder,
      (listPermaCacheQuery userId { opts with sortBy := sortBy, sortOrder := sortOrder }).filters =
        (listPermaCacheQuery userId opts).filters) := by
  refine ⟨?_, ?_, ?_⟩
  · intro b hb hne
    rcases listPermaCacheQuery_cases userId opts with ⟨h0 | h0, -⟩ | ⟨b', hb', -, h⟩
    · rw [hb] at h0; cases h0
    · rw [hb] at h0; cases h0; exact absurd rfl hne
    · rw [hb] at hb'; cases hb'; rw [h]
  · intro hb
    rcases listPermaCacheQuery_cases userId opts with ⟨-, h⟩ | ⟨b', hb', hne, -⟩
    · rw [h]
    · rcases hb with hb | hb <;> rw [hb] at hb' <;> cases hb'
      exact absurd rfl hne
  · intro sortBy sortOrder
    rcases listPermaCacheQuery_cases userId opts with ⟨hb, h⟩ | ⟨b, hb, hne, h⟩ <;>
      rcases listPermaCacheQuery_cases userId
        { opts with sortBy := sortBy, sortOrder := sortOrder } with ⟨hb', h'⟩ | ⟨b', hb', hne', h'⟩
    · rw [h, h']
    · exfalso
      rcases hb with hb | hb <;> simp only [hb] at hb' <;> cases hb'
      exact hne' rfl
    · exfalso
      rcases hb' with hb' | hb' <;> simp only [hb] at hb' <;> cases hb'
      exact hne rfl
    · rw [h, h']
      simp only [hb] at hb'
      cases hb'
      rfl

/-- Witness of C6, amended: a cursor with each sort choice, and no cursor. -/
theorem listPermaCacheQuery_cursor_witness :
    (listPermaCacheQuery 1 { before := some "2022-06-03T00:00:00.000Z", sortBy := some "Size" }
      ).filters =
      [Filter.eq "user_id" (.num 1), Filter.is "deleted_at" .null,
        Filter.lt "inserted_at" (.str "2022-06-03T00:00:00.000Z")] ∧
    (listPermaCacheQuery 1 { before := some "2022-06-03T00:00:00.000Z", sortBy := some "Date" }
      ).filters =
      [Filter.eq "user_id" (.num 1), Filter.is "deleted_at" .null,
        Filter.lt "inserted_at" (.str "2022-06-03T00:00:00.000Z")] ∧
    (listPermaCacheQuery 1 { sortBy := some "Size" }).filters =
      [Filter.eq "user_id" (.num 1), Filter.is "deleted_at" .null] :=
  ⟨(listPermaCacheQuery_cursor 1
      { before := some "2022-06-03T00:00:00.000Z", sortBy := some "Size" }).1 _ rfl (by decide),
   (listPermaCacheQuery_cursor 1
      { before := some "2022-06-03T00:00:00.000Z", sortBy := some "Date" }).1 _ rfl (by decide),
   (listPermaCacheQuery_cursor 1 { sortBy := some "Size" }).2.1 (Or.inl rfl)⟩

/-! ## The uniqueness check of `getUserTags` -/

theorem getProp_tag (t : UserTag) : getProp t.toJS "tag" = .ok (.str t.tag) := by
  simp [getProp, UserTag.toJS, List.lookup]

theorem any_sameValueZero_str (tag : String) (seen : List String) :
    (seen.map JSVal.str).any (JSVal.sameValueZero (.str tag)) = decide (tag ∈ seen) := by
  induction seen with
  | nil => simp
  | cons a rest ih =>
    simp only [List.map_cons, List.any_cons, ih, JSVal.sameValueZero, List.mem_cons]
    by_cases h : tag = a <;> simp [h]

/-- The loop over typed rows succeeds when no tag is in the set already and no
tag comes twice. -/
theorem forEachTag_ok (rows : List UserTag) :
    ∀ seen : List String, (rows.map UserTag.tag).Nodup →
      (∀ t ∈ rows.map UserTag.tag, t ∉ seen) →
      forEachTag (rows.map UserTag.toJS) (seen.map JSVal.str) = .ok () := by
  induction rows with
  | nil => intro seen _ _; rfl
  | cons r rest ih =>
    intro seen hnd hdisj
    have hr : r.tag ∉ seen := hdisj r.tag (by simp)
    rw [List.map_cons, List.nodup_cons] at hnd
    simp only [List.map_cons, forEachTag, getProp_tag, any_sameValueZero_str, hr,
      decide_False, Bool.false_eq_true, if_false]
    have := ih (seen ++ [r.tag]) hnd.2 (by
      intro t ht hmem
      rcases List.mem_append.1 hmem with h | h
      · exact hdisj t (by simp [List.mem_map] at ht ⊢; exact Or.inr ht) h
      · simp at h; subst h; exact hnd.1 ht)
    simpa using this

/-- The loop over typed rows raises `ConstraintError`, naming a tag of the
rows, when a tag is in the set already or comes twice. -/
theorem forEachTag_error (rows : List UserTag) :
    ∀ seen : List String,
      ¬ ((rows.map UserTag.tag).Nodup ∧ ∀ t ∈ rows.map UserTag.tag, t ∉ seen) →
      ∃ t ∈ rows.map UserTag.tag,
        forEachTag (rows.map UserTag.toJS) (seen.map JSVal.str) =
          .error (.ConstraintError ("More than one row found for user tag " ++ t) none) := by
  induction rows with
  | nil => intro seen h; exact absurd ⟨List.nodup_nil, by simp⟩ h
  | cons r rest ih =>
    intro seen h
    by_cases hr : r.tag ∈ seen
    · refine ⟨r.tag, by simp, ?_⟩
      simp [forEachTag, getProp_tag, any_sameValueZero_str, hr, JSVal.toStr]
    · have h' : ¬ ((rest.map UserTag.tag).Nodup ∧
          ∀ t ∈ rest.map UserTag.tag, t ∉ seen ++ [r.tag]) := by
        rintro ⟨hnd, hdisj⟩
        apply h
        refine ⟨?_, ?_⟩
        · rw [List.map_cons, List.nodup_cons]
          exact ⟨fun hmem => hdisj r.tag hmem (by simp), hnd⟩
        · intro t ht
          rw [List.map_cons, List.mem_cons] at ht
          rcases ht with rfl | ht
          · exact hr
          · intro hmem; exact hdisj t ht (by simp [hmem])
      obtain ⟨t, ht, heq⟩ := ih (seen ++ [r.tag]) h'
      refine ⟨t, by simp only [List.map_cons, List.mem_cons]; exact Or.inr ht, ?_⟩
      simp only [List.map_cons, forEachTag, getProp_tag, any_sameValueZero_str, hr,
        decide_False, Bool.false_eq_true, if_false]
      simpa using heq

/-- C2. When the store returns a list of rows without error, `getUserTags`
raises `ConstraintError` if and only if two rows of the list have the same tag
name (the list of tag names has a repetition); when no tag name is repeated it
returns exactly the rows of the store, in the same order. -/
theorem getUserTags_unique {σ : Type} (exec : Query → σ → Response × σ) (userId : Int)
    (s : σ) (rows : List UserTag)
    (herr : (exec (getUserTagsQuery userId) s).1.error.truthy = false)
    (hdata : (exec (getUserTagsQuery userId) s).1.data = .arr (rows.map UserTag.toJS)) :
    ((∃ message status, (getUserTags exec userId s).1 =
        .error (.ConstraintError message status)) ↔ ¬ (rows.map UserTag.tag).Nodup) ∧
    ((rows.map UserTag.tag).Nodup →
      (getUserTags exec userId s).1 = .ok (.arr (rows.map UserTag.toJS))) := by
  have hok : (rows.map UserTag.tag).Nodup →
      (getUserTags exec userId s).1 = .ok (.arr (rows.map UserTag.toJS)) := by
    intro hnd
    have := forEachTag_ok rows [] hnd (by simp)
    simp only [List.map_nil] at this
    simp [getUserTags, herr, hdata, this]
  refine ⟨⟨?_, ?_⟩, hok⟩
  · rintro ⟨message, status, h⟩ hnd
    rw [hok hnd] at h
    cases h
  · intro hnd
    obtain ⟨t, -, ht⟩ := forEachTag_error rows [] (fun h => hnd h.1)
    simp only [List.map_nil] at ht
    exact ⟨"More than one row found for user tag " ++ t, none,
      by simp [getUserTags, herr, hdata, ht]⟩

/-- Witness of C2: a repeated tag raises, distinct tags are returned as they
came. -/
theorem getUserTags_unique_witness :
    (∃ message status,
      (getUserTags (constStore (tagsResponse repeatedTags)) 1 ()).1 =
        .error (.ConstraintError message status)) ∧
    (getUserTags (constStore (tagsResponse distinctTags)) 1 ()).1 =
      .ok (.arr (distinctTags.map UserTag.toJS)) :=
  ⟨(getUserTags_unique (constStore (tagsResponse repeatedTags)) 1 () repeatedTags
      rfl rfl).1.2 (by decide),
   (getUserTags_unique (constStore (tagsResponse distinctTags)) 1 () distinctTags
      rfl rfl).2 (by decide)⟩

/-! ## Soft delete over the model store -/

/-- The update of `deletePermaCache` selects the active rows of the pair. -/
theorem deleteQuery_selects (date : String) (userId : Int) (url : String) (r : Row) :
    (deletePermaCacheQuery date userId url).selects r = true ↔
      r.url = url ∧ r.user_id = userId ∧ r.deleted_at = none := by
  cases hd : r.deleted_at <;>
    simp [deletePermaCacheQuery, Query.selects, Query.is, Query.matchAll, clientFrom,
      Filter.holds, Row.col, JSVal.sameValueZero, hd]

/-- The update of `deletePermaCache` sets the two timestamps of a row. -/
theorem deleteQuery_setAll (date : String) (r : Row) :
    r.setAll [("deleted_at", .str date), ("updated_at", .str date)] =
      { r with deleted_at := some date, updated_at := date } := by
  simp [Row.setAll, Row.set]

/-- The model store on the update of `deletePermaCache`. -/
theorem storeExec_delete (date : String) (userId : Int) (url : String) (rows : List Row) :
    storeExec (deletePermaCacheQuery date userId url) rows =
      ({ data := .arr ((rows.filter (deletePermaCacheQuery date userId url).selects).map
            (fun r => ({ r with deleted_at := some date, updated_at := date } : Row).toJS)),
         error := .null, status := 200 },
       rows.map (fun r => if (deletePermaCacheQuery date userId url).selects r
         then { r with deleted_at := some date, updated_at := date } else r)) := by
  have h : (deletePermaCacheQuery date userId url).table = "perma_cache" ∧
      (deletePermaCacheQuery date userId url).schema = none := ⟨rfl, rfl⟩
  have ha : (deletePermaCacheQuery date userId url).action =
      Action.update [("deleted_at", .str date), ("updated_at", .str date)] := rfl
  simp only [storeExec, h, and_self, if_true, ha, deleteQuery_setAll]

/-- After the update of `deletePermaCache`, no row of the pair is active. -/
theorem delete_leaves_none_selected (date date' : String) (userId : Int) (url : String)
    (rows : List Row) :
    ∀ r ∈ (storeExec (deletePermaCacheQuery date userId url) rows).2,
      (deletePermaCacheQuery date' userId url).selects r = false := by
  intro r hr
  rw [storeExec_delete] at hr
  simp only [List.mem_map] at hr
  obtain ⟨r0, -, rfl⟩ := hr
  by_cases h0 : (deletePermaCacheQuery date userId url).selects r0 = true
  · simp only [h0, if_true]
    rw [Bool.eq_false_iff]
    intro h
    have := (deleteQuery_selects date' userId url _).1 h
    simp at this
  · simp only [h0]
    rw [Bool.eq_false_iff]
    intro h
    exact h0 ((deleteQuery_selects date userId url r0).2
      ((deleteQuery_selects date' userId url r0).1 h))

/-- C9. Over the model store that applies the update built by
`deletePermaCache`: for every state of the store, `userId` and `url`, of two
calls of `deletePermaCache(userId, url)` in a row the second returns
`undefined` and raises nothing, and leaves every row as it is; the first call
keeps the number of rows, leaves every row that is tombstoned already or that
belongs to another `(userId, url)` pair as it is, and tombstones the others. -/
theorem deletePermaCache_twice (rows : List Row) (userId : Int) (url date date' : String) :
    let first := deletePermaCache storeExec date userId url rows
    let second := deletePermaCache storeExec date' userId url first.2
    second.1 = .ok .undefined ∧ second.2 = first.2 ∧
    first.2.length = rows.length ∧
    (∀ (i : Nat) (r : Row), rows[i]? = some r →
      (r.deleted_at ≠ none ∨ r.user_id ≠ userId ∨ r.url ≠ url) → first.2[i]? = some r) ∧
    (∀ (i : Nat) (r : Row), rows[i]? = some r →
      r.deleted_at = none → r.user_id = userId → r.url = url →
      first.2[i]? = some { r with deleted_at := some date, updated_at := date }) := by
  intro first second
  have hnone := delete_leaves_none_selected date date' userId url rows
  have hfirst : first.2 = (storeExec (deletePermaCacheQuery date userId url) rows).2 := rfl
  have hfilter : first.2.filter (deletePermaCacheQuery date' userId url).selects = [] := by
    rw [List.filter_eq_nil_iff, hfirst]
    intro r hr
    simp [hnone r hr]
  refine ⟨?_, ?_, ?_, ?_, ?_⟩
  · simp only [second, deletePermaCache, storeExec_delete date', hfilter]
    rfl
  · simp only [second, deletePermaCache, storeExec_delete date']
    rw [hfirst]
    conv_rhs => rw [← List.map_id (storeExec (deletePermaCacheQuery date userId url) rows).2]
    apply List.map_congr_left
    intro r hr
    simp [hnone r hr]
  · rw [hfirst, storeExec_delete]
    simp
  · intro i r hi hcond
    rw [hfirst, storeExec_delete]
    simp only [List.getElem?_map, hi, Option.map_some']
    have : (deletePermaCacheQuery date userId url).selects r = false := by
      rw [Bool.eq_false_iff]
      intro h
      obtain ⟨h1, h2, h3⟩ := (deleteQuery_selects date userId url r).1 h
      rcases hcond with hc | hc | hc
      · exact hc h3
      · exact hc h2
      · exact hc h1
    simp [this]
  · intro i r hi h1 h2 h3
    rw [hfirst, storeExec_delete]
    simp only [List.getElem?_map, hi, Option.map_some']
    have : (deletePermaCacheQuery date userId url).selects r = true :=
      (deleteQuery_selects date userId url r).2 ⟨h3, h2, h1⟩
    simp [this]

/-- Witness of C9: user 1 deletes `https://example.org/a` twice; the row of
user 2 with the same url stays as it is. -/
theorem deletePermaCache_twice_witness :
    (deletePermaCache storeExec "2022-07-02T00:00:00.000Z" 1 "https://example.org/a"
      (deletePermaCache storeExec "2022-07-01T00:00:00.000Z" 1 "https://example.org/a"
        sampleRows).2).1 = .ok .undefined ∧
    (deletePermaCache storeExec "2022-07-01T00:00:00.000Z" 1 "https://example.org/a"
      sampleRows).2[4]? =
      some ⟨5, 2, "https://example.org/a", 50, "2022-04-01T00:00:00.000Z",
        "2022-04-01T00:00:00.000Z", none⟩ ∧
    (deletePermaCache storeExec "2022-07-01T00:00:00.000Z" 1 "https://example.org/a"
      sampleRows).2[0]? =
      some ⟨1, 1, "https://example.org/a", 10, "2022-06-01T00:00:00.000Z",
        "2022-07-01T00:00:00.000Z", some "2022-07-01T00:00:00.000Z"⟩ :=
  ⟨(deletePermaCache_twice sampleRows 1 "https://example.org/a" "2022-07-01T00:00:00.000Z"
      "2022-07-02T00:00:00.000Z").1,
   (deletePermaCache_twice sampleRows 1 "https://example.org/a" "2022-07-01T00:00:00.000Z"
      "2022-07-02T00:00:00.000Z").2.2.2.1 4 _ rfl (Or.inr (Or.inl (by decide))),
   (deletePermaCache_twice sampleRows 1 "https://example.org/a" "2022-07-01T00:00:00.000Z"
      "2022-07-02T00:00:00.000Z").2.2.2.2 0 _ rfl rfl rfl rfl⟩

/-! ## Listing over the model store -/

theorem not_lt_empty (a : String) : ¬ a < "" := by
  intro h
  rw [String.lt_iff_toList_lt] at h
  generalize a.toList = l at h
  cases h

/-- The query of `listPermaCache` selects the active rows of the user, before
the cursor when there is one. -/
theorem listQuery_selects (userId : Int) (opts : ListOpts) (r : Row) :
    (listPermaCacheQuery userId opts).selects r = true ↔
      r.user_id = userId ∧ r.deleted_at = none ∧
        ∀ b, opts.before = some b → b ≠ "" → r.inserted_at < b := by
  rcases listPermaCacheQuery_cases userId opts with ⟨hb, h⟩ | ⟨b, hb, hne, h⟩
  · rw [h]
    have hcur : ∀ b, opts.before = some b → b ≠ "" → r.inserted_at < b := by
      intro b hb' hne
      rcases hb with hb | hb <;> rw [hb] at hb' <;> cases hb'
      exact absurd rfl hne
    rw [show (r.user_id = userId ∧ r.deleted_at = none ∧
        ∀ b, opts.before = some b → b ≠ "" → r.inserted_at < b) ↔
        (r.user_id = userId ∧ r.deleted_at = none) from
      ⟨fun h => ⟨h.1, h.2.1⟩, fun h => ⟨h.1, h.2, hcur⟩⟩]
    cases hd : r.deleted_at <;>
      simp [Query.selects, Filter.holds, Row.col, JSVal.sameValueZero, hd]
  · rw [h]
    have hcur : (∀ b', opts.before = some b' → b' ≠ "" → r.inserted_at < b') ↔
        r.inserted_at < b := by
      constructor
      · intro hall; exact hall b hb hne
      · intro hlt b' hb' _
        rw [hb] at hb'; cases hb'; exact hlt
    rw [hcur]
    cases hd : r.deleted_at <;>
      simp [Query.selects, Filter.holds, Row.col, JSVal.sameValueZero, valueLt, hd]

/-- The model store on the query of `listPermaCache`. -/
theorem storeExec_list (userId : Int) (opts : ListOpts) (rows : List Row) :
    storeExec (listPermaCacheQuery userId opts) rows =
      ({ data := .arr ((limitRows (some (sizeOrDefault opts.size))
            (orderRows (some (if opts.sortBy = some "Size" then "size" else "inserted_at",
                decide (opts.sortOrder = some "Asc")))
              (rows.filter (listPermaCacheQuery userId opts).selects))).map
            (Row.project permaCacheColumns)),
         error := .null, status := 200 },
       rows) := by
  rcases listPermaCacheQuery_cases userId opts with ⟨-, h⟩ | ⟨b, -, -, h⟩ <;>
    rw [h] <;> simp [storeExec, selectResponse]

theorem mem_orderRows (orderBy : Option (String × Bool)) (rows : List Row) (r : Row) :
    r ∈ orderRows orderBy rows ↔ r ∈ rows := by
  rcases orderBy with _ | ⟨column, _ | _⟩
  · rfl
  · exact (List.perm_insertionSort _ rows).mem_iff
  · exact (List.perm_insertionSort _ rows).mem_iff

theorem mem_limitRows (limitTo : Option Int) (rows : List Row) (r : Row)
    (h : r ∈ limitRows limitTo rows) : r ∈ rows := by
  cases limitTo with
  | none => exact h
  | some n => exact List.mem_of_mem_take h

/-- What `listPermaCache` returns over the model store: rows of the store that
the query selects, cut down to the select list. -/
theorem listPermaCache_returns (rows : List Row) (userId : Int) (opts : ListOpts) :
    ∃ returned : List Row,
      (listPermaCache storeExec userId opts rows).1 =
        .ok (.arr (returned.map (Row.project permaCacheColumns))) ∧
      ∀ r ∈ returned, r ∈ rows ∧ (listPermaCacheQuery userId opts).selects r = true := by
  refine ⟨limitRows (some (sizeOrDefault opts.size))
    (orderRows (some (if opts.sortBy = some "Size" then "size" else "inserted_at",
        decide (opts.sortOrder = some "Asc")))
      (rows.filter (listPermaCacheQuery userId opts).selects)), ?_, ?_⟩
  · simp only [listPermaCache, storeExec_list, JSVal.truthy]
    rfl
  · intro r hr
    have h1 := (mem_orderRows _ _ r).1 (mem_limitRows _ _ r hr)
    rw [List.mem_filter] at h1
    exact h1

/-- Sorting two rows by `inserted_at`, latest first. -/
theorem sort_two_desc (e1 e2 : Row) (h : e1.inserted_at < e2.inserted_at) (l : List Row)
    (hl : l.Perm [e1, e2]) :
    orderRows (some ("inserted_at", false)) l = [e2, e1] := by
  have hne : e1 ≠ e2 := fun heq => by rw [heq] at h; exact lt_irrefl _ h
  have h21 : ¬ e2.inserted_at < e1.inserted_at := lt_asymm h
  have hlen := hl.length_eq
  match l, hl, hlen with
  | [a, b], hl, _ =>
    have ha : a ∈ [e1, e2] := hl.subset (by simp)
    have hb : b ∈ [e1, e2] := hl.subset (by simp)
    have h1 : e1 ∈ [a, b] := hl.symm.subset (by simp)
    have h2 : e2 ∈ [a, b] := hl.symm.subset (by simp)
    simp only [List.mem_cons, List.mem_singleton, List.not_mem_nil, or_false] at ha hb h1 h2
    rcases ha with rfl | rfl <;> rcases hb with rfl | rfl
    · simp at h2; exact absurd h2.symm hne
    · simp [orderRows, List.insertionSort, List.orderedInsert, valueLt, Row.col, h]
    · simp [orderRows, List.insertionSort, List.orderedInsert, valueLt, Row.col, h21]
    · simp at h1; exact absurd h1 hne

/-- C10 as stated fails in its general part: with `before` supplied as the
empty string the query has no cursor filter, and `listPermaCache` returns an
entry whose `insertedAt` is not earlier than `before`. -/
theorem listPermaCache_empty_before :
    (listPermaCache storeExec 1 { before := some "" } [sampleRow]).1 =
      .ok (.arr [sampleRow.project permaCacheColumns]) ∧
    ¬ sampleRow.inserted_at < "" :=
  ⟨rfl, not_lt_empty _⟩

/-- C10, amended. Over the model store that evaluates the query built by
`listPermaCache`: when the active entries of `userId` are three entries with
insertion times T1 < T2 < T3, `listPermaCache(userId, { before: T3 })` with the
default sort and size returns the T2 entry and the T1 entry (latest first) and
not the T3 entry; in general, when `before` is supplied and not the empty
string, what is returned is a list of entries of the store, each one an active
entry of `userId` whose `inserted_at` is strictly earlier than `before`. -/
theorem listPermaCache_before (rows : List Row) (userId : Int) :
    (∀ e1 e2 e3 : Row, (activeRows userId rows).Perm [e1, e2, e3] →
      e1.inserted_at < e2.inserted_at → e2.inserted_at < e3.inserted_at →
      (listPermaCache storeExec userId { before := some e3.inserted_at } rows).1 =
        .ok (.arr [e2.project permaCacheColumns, e1.project permaCacheColumns]) ∧
      e3.project permaCacheColumns ∉
        [e2.project permaCacheColumns, e1.project permaCacheColumns]) ∧
    (∀ (opts : ListOpts) (b : String), opts.before = some b → b ≠ "" →
      ∃ returned : List Row,
        (listPermaCache storeExec userId opts rows).1 =
          .ok (.arr (returned.map (Row.project permaCacheColumns))) ∧
        ∀ r ∈ returned, r ∈ rows ∧ r.user_id = userId ∧ r.deleted_at = none ∧
          r.inserted_at < b) := by
  constructor
  · intro e1 e2 e3 hperm h12 h23
    have h13 : e1.inserted_at < e3.inserted_at := lt_trans h12 h23
    have hne : e3.inserted_at ≠ "" := fun h => not_lt_empty _ (h ▸ h23)
    have hfilter : rows.filter
        (listPermaCacheQuery userId { before := some e3.inserted_at }).selects =
        (activeRows userId rows).filter (fun r => decide (r.inserted_at < e3.inserted_at)) := by
      rw [activeRows, List.filter_filter]
      apply List.filter_congr
      intro r _
      rw [Bool.eq_iff_iff, listQuery_selects]
      simp only [Bool.and_eq_true, decide_eq_true_eq]
      constructor
      · intro h; exact ⟨h.2.2 _ rfl hne, h.1, h.2.1⟩
      · intro h
        refine ⟨h.2.1, h.2.2, ?_⟩
        intro b hb _
        cases hb
        exact h.1
    have hsel : (rows.filter
        (listPermaCacheQuery userId { before := some e3.inserted_at }).selects).Perm
        [e1, e2] := by
      rw [hfilter]
      have hf : [e1, e2, e3].filter (fun r => decide (r.inserted_at < e3.inserted_at)) =
          [e1, e2] := by
        simp only [List.filter, decide_eq_true h13, decide_eq_true h23,
          decide_eq_false (lt_irrefl e3.inserted_at)]
      have := hperm.filter (fun r => decide (r.inserted_at < e3.inserted_at))
      rw [hf] at this
      exact this
    constructor
    · simp only [listPermaCache, storeExec_list, JSVal.truthy]
      have hs := sort_two_desc e1 e2 h12 _ hsel
      simp only [Option.some.injEq, reduceCtorEq, if_false, decide_False] at hs ⊢
      rw [hs]
      rfl
    · have h32 : e3.inserted_at ≠ e2.inserted_at := fun h => lt_irrefl _ (h ▸ h23)
      have h31 : e3.inserted_at ≠ e1.inserted_at := fun h => lt_irrefl _ (h ▸ h13)
      simp [Row.project, permaCacheColumns, Row.col, h32, h31]
  · intro opts b hb hne
    obtain ⟨returned, hret, hall⟩ := listPermaCache_returns rows userId opts
    refine ⟨returned, hret, ?_⟩
    intro r hr
    obtain ⟨hmem, hsel⟩ := hall r hr
    obtain ⟨h1, h2, h3⟩ := (listQuery_selects userId opts r).1 hsel
    exact ⟨hmem, h1, h2, h3 b hb hne⟩

/-- Witness of C10, amended: user 1 of the sample store lists before the third
day and gets the entries of the second and the first day. -/
theorem listPermaCache_before_witness :
    ((listPermaCache storeExec 1 { before := some "2022-06-03T00:00:00.000Z" } sampleRows).1 =
        .ok (.arr [sampleRow2.project permaCacheColumns,
          sampleRow.project permaCacheColumns]) ∧
      sampleRow3.project permaCacheColumns ∉
        [sampleRow2.project permaCacheColumns, sampleRow.project permaCacheColumns]) ∧
    (∃ returned : List Row,
      (listPermaCache storeExec 1
          { before := some "2022-06-03T00:00:00.000Z", sortBy := some "Size" } sampleRows).1 =
        .ok (.arr (returned.map (Row.project permaCacheColumns))) ∧
      ∀ r ∈ returned, r ∈ sampleRows ∧ r.user_id = 1 ∧ r.deleted_at = none ∧
        r.inserted_at < "2022-06-03T00:00:00.000Z") :=
  ⟨(listPermaCache_before sampleRows 1).1 sampleRow sampleRow2 sampleRow3 (List.Perm.refl _)
      (String.lt_iff_toList_lt.2 (by decide)) (String.lt_iff_toList_lt.2 (by decide)),
   (listPermaCache_before sampleRows 1).2
      { before := some "2022-06-03T00:00:00.000Z", sortBy := some "Size" } _ rfl (by decide)⟩

end DBClient
